import Mathlib

/-!
Verification of the PyScheme core evaluator (`pyscheme/expr.py`).

The evaluator is written in continuation-passing style with two continuations
(`ret` for success, `amb` for failure) and is trampolined: every step returns
either a zero-argument thunk, a terminal value, or the `None` exit sentinel.
We embed it as a defunctionalised machine: every `lambda:` thunk of the source
becomes a `Th` constructor, every `ret`-closure becomes a `Cont` constructor,
every failure continuation becomes an `Amb` constructor, and the functions
`evalF`, `applyF`, `applyEvF`, `applyCont`, `applyAmb` and `force` mirror,
case by case, `Expr.eval`, `Op.apply`, `Primitive.apply_evaluated_args`, the
bodies of the `ret`-closures, the bodies of the `amb`-closures, and the act of
invoking a thunk.  Python exceptions become the `Promise.err` outcome; writes
of the `print` primitive become `Promise.out` events; the `None` sentinel of
`exit` becomes `Promise.exitS`.  The trampoline itself and the environment
class are not under `src/` and are modelled from the spec where noted.
-/

set_option linter.unusedVariables false

namespace PyScheme

/-- Three-valued booleans: the singleton objects `T`, `F`, `U` of `expr.py`. -/
inductive BV3
| t
| f
| u
deriving DecidableEq

/-- `T.__and__` returns `other`; `F.__and__` returns `self`; `U.__and__`
returns `other` when it is `F` and `self` (= `U`) otherwise. -/
def andB : BV3 → BV3 → BV3
| .t, x => x
| .f, _ => .f
| .u, .f => .f
| .u, _ => .u

/-- `T.__or__` returns `self`; `F.__or__` returns `other`; `U.__or__`
returns `other` when it is `T` and `self` (= `U`) otherwise. -/
def orB : BV3 → BV3 → BV3
| .t, _ => .t
| .f, x => x
| .u, .t => .t
| .u, _ => .u

/-- `T.__invert__` is `F`, `F.__invert__` is `T`, `U.__invert__` is `self`. -/
def notB : BV3 → BV3
| .t => .f
| .f => .t
| .u => .u

/-- `Boolean.__xor__`: `(self & ~other) | (other & ~self)`. -/
def xorB (x y : BV3) : BV3 :=
  orB (andB x (notB y)) (andB y (notB x))

/-- The built-in operator values bound in the initial environment that the
claims touch.  `add`/`eq`/`head`/`tail`/`exit`/`print` are `Primitive`s
(operands evaluated first); `and`/`or`/`then`/`back`/`call/cc` are
`SpecialForm`s (operands received unevaluated). -/
inductive OpKind
| addOp
| eqOp
| andOp
| orOp
| thenOp
| backOp
| callccOp
| exitOp
| printOp
| headOp
| tailOp
deriving DecidableEq

mutual
/-- The `Expr` hierarchy of `expr.py`, restricted to the constructors the
claims touch: `Number` constants, the three `Boolean` singletons, flyweight
`Symbol`s (the flyweight/intern table makes identity equality coincide with
name equality, so a symbol is represented by its name), `Pair`/`Null` lists,
`Conditional`, `Lambda`, `Application`, and the runtime values `Closure`,
`Cont` (a reified success continuation) and the built-in operators. -/
inductive Expr
| num (n : Int)
| bool (b : BV3)
| sym (s : String)
| nil
| pair (car : Expr) (cdr : Expr)
| cond (test : Expr) (conseq : Expr) (alt : Expr)
| lam (formals : Expr) (body : Expr)
| app (op : Expr) (operands : Expr)
| closure (formals : Expr) (body : Expr) (env : EnvT)
| cont (k : Cont)
| opE (o : OpKind)

/-- Modelled from the spec: `environment.py` is not under `src/`.  Spec §4.2:
environments form a parent chain of frames; `extend(dict)` creates a child
frame seeded with the dict and never mutates the parent. -/
inductive EnvT
| root
| frame (bs : Bindings) (parent : EnvT)

/-- A frame's bindings: an association of symbol names to values, in
insertion order. -/
inductive Bindings
| nil
| cons (name : String) (v : Expr) (rest : Bindings)

/-- Defunctionalised success continuations: one constructor per `ret`-closure
appearing in `expr.py`, holding exactly what that closure captures.
`halt` is the top-level driver continuation.
`evalCdr` is `car_continuation` of `Pair.eval`; `consPair` is
`cdr_continuation`; `branch` is `test_continuation` of `Conditional.eval`;
`applyOp` is `evaluated_op_continuation` of `Application.eval`; `primApply`
is `deferred_apply` of `Primitive.apply`; `reApply` is
`re_apply_continuation` of `Closure.apply_evaluated_args`; `andCont` /
`andCont2` are `cont` / `cont2` of `And.apply`, `orCont` / `orCont2`
likewise for `Or.apply`; `callccApply` is `do_apply` of `CallCC.apply`. -/
inductive Cont
| halt
| evalCdr (env : EnvT) (cdrE : Expr) (k : Cont)
| consPair (carV : Expr) (k : Cont)
| branch (env : EnvT) (conseq : Expr) (alt : Expr) (k : Cont)
| applyOp (operands : Expr) (env : EnvT) (k : Cont)
| primApply (op : Expr) (k : Cont)
| reApply (actuals : Expr) (k : Cont)
| andCont (env : EnvT) (args : Expr) (k : Cont)
| andCont2 (lhs : Expr) (k : Cont)
| orCont (env : EnvT) (args : Expr) (k : Cont)
| orCont2 (lhs : Expr) (k : Cont)
| callccApply (env : EnvT) (k : Cont)

/-- Defunctionalised failure continuations: the top-level one, and `amb2` of
`Then.apply`, which captures the operand list, the environment, the caller's
`ret` and the caller's original `amb`. -/
inductive Amb
| haltAmb
| thenAmb (env : EnvT) (args : Expr) (k : Cont) (a : Amb)
end

/-- The errors the modelled code can raise: `NonBooleanExpressionError` from
`is_true`/`is_false`, `TypeError` and `KeyError` from `__getitem__` and
arithmetic, `AttributeError` for a method that does not exist on the
receiver, and `SymbolNotFound` from environment lookup (spec §4.2). -/
inductive Err
| nonBoolean
| typeErr
| keyErr
| attrErr
| symbolNotFound
deriving DecidableEq

/-- A Python index value as passed to `__getitem__`: an `int`, or anything
else (which both `Pair.__getitem__` and `Null.__getitem__` reject with
`TypeError`). -/
inductive Ix
| int (i : Int)
| notInt

/-- Defunctionalised thunks: one constructor per `lambda:` shape in
`expr.py`.  `evalT` is `lambda: e.eval(env, ret, amb)`; `evalIxT` is
`lambda: args[i].eval(env, ret, amb)` (the indexing happens when the thunk is
invoked); `retT` is `lambda: ret(v, amb)`; `ambT` is `lambda: amb()`;
`applyT` is `lambda: op.apply(args, env, ret, amb)`; `applyEvT` is
`lambda: op.apply_evaluated_args(args, ret, amb)`; `primResT` is the
result-building thunk of an eager primitive, e.g.
`lambda: ret(args[0] + args[1], amb)`; `contRetT` is
`lambda: self._ret(args[0], amb)` of `Cont.apply_evaluated_args`; `lookupT`
is `lambda: env.lookup(self, ret, amb)` of `Symbol.eval`. -/
inductive Th
| evalT (e : Expr) (env : EnvT) (k : Cont) (a : Amb)
| evalIxT (args : Expr) (i : Nat) (env : EnvT) (k : Cont) (a : Amb)
| retT (k : Cont) (v : Expr) (a : Amb)
| ambT (a : Amb)
| applyT (op : Expr) (args : Expr) (env : EnvT) (k : Cont) (a : Amb)
| applyEvT (op : Expr) (args : Expr) (k : Cont) (a : Amb)
| primResT (o : OpKind) (args : Expr) (k : Cont) (a : Amb)
| contRetT (c : Cont) (args : Expr) (a : Amb)
| lookupT (s : String) (env : EnvT) (k : Cont) (a : Amb)

/-- A `Promise` as the trampoline observes it: a zero-argument thunk to run
next, a terminal value (what the top-level `ret` produces), the `None` exit
sentinel returned by `Exit.apply_evaluated_args`, a raised Python exception,
or a write to the output sink performed by `print` before it continues. -/
inductive Promise
| thunk (t : Th)
| done (v : Expr)
| exitS
| err (e : Err)
| out (s : String) (rest : Promise)

/-- `type(x) is Null` / `x.is_null()` — `Null` is a singleton. -/
def isNullE : Expr → Bool
| .nil => true
| _ => false

/-- Whether an expression is one of the three `Boolean` singletons. -/
def isBoolE : Expr → Bool
| .bool _ => true
| _ => false

/-- Whether an expression is a `List` (a `Pair` or `Null`). -/
def isListE : Expr → Bool
| .nil => true
| .pair _ _ => true
| _ => false

/-- The name of a `Symbol`; closure formals are symbols, and a frame keys its
bindings by symbol (identity = name, by the flyweight invariant). -/
def symName : Expr → String
| .sym s => s
| _ => ""

/-- `List.list`: build a `Pair`/`Null` chain from the given elements. -/
def ofList : List Expr → Expr
| [] => .nil
| x :: xs => .pair x (ofList xs)

/-- A formal-parameter list: a `Pair`/`Null` chain of symbols. -/
def ofSyms : List String → Expr
| [] => .nil
| s :: ss => .pair (.sym s) (ofSyms ss)

/-- Build a frame's bindings from a list of (name, value) pairs, in order. -/
def mkBindings : List (String × Expr) → Bindings
| [] => .nil
| (s, v) :: r => .cons s v (mkBindings r)

/-- `is_true()`: `True` exactly on the `T` singleton (`T.is_true`), `False`
on the other two booleans (`Boolean.is_true`), and raises
`NonBooleanExpressionError` on everything else (`Expr.is_true`). -/
def isTrue : Expr → Except Err Bool
| .bool .t => .ok true
| .bool _ => .ok false
| _ => .error .nonBoolean

/-- `is_false()`: `True` exactly on `F`, `False` on the other booleans,
raises `NonBooleanExpressionError` otherwise. -/
def isFalse : Expr → Except Err Bool
| .bool .f => .ok true
| .bool _ => .ok false
| _ => .error .nonBoolean

/-- `car()`: `Pair.car` returns the head, `Null.car` returns `Null` itself;
any other receiver has no `car` method (`AttributeError`). -/
def carF : Expr → Except Err Expr
| .pair c _ => .ok c
| .nil => .ok .nil
| _ => .error .attrErr

/-- `cdr()`: `Pair.cdr` returns the tail, `Null.cdr` returns `Null` itself;
any other receiver has no `cdr` method. -/
def cdrF : Expr → Except Err Expr
| .pair _ d => .ok d
| .nil => .ok .nil
| _ => .error .attrErr

/-- The walking loop of `Pair.__getitem__`: `while item > 0: val = val.cdr()`
followed by `if val.is_null(): raise KeyError` and `return val.car()`.
Note `Null.cdr()` is `Null`, so walking past the end lands on `Null` and
raises `KeyError` only at the final check. -/
def listRef : Nat → Expr → Except Err Expr
| 0, v => if isNullE v then .error .keyErr else carF v
| n + 1, v =>
  match cdrF v with
  | .ok w => listRef n w
  | .error e => .error e

/-- `__getitem__` on lists: `Pair.__getitem__` raises `TypeError` for a
non-`int` index, `KeyError` for a negative one, then walks; `Null.__getitem__`
raises `TypeError` for a non-`int` index and `KeyError` for every `int`.
A non-list receiver is not subscriptable (`TypeError`). -/
def getItem : Expr → Ix → Except Err Expr
| .pair c d, .notInt => .error .typeErr
| .pair c d, .int i => if i < 0 then .error .keyErr else listRef i.toNat (.pair c d)
| .nil, .notInt => .error .typeErr
| .nil, .int _ => .error .keyErr
| _, _ => .error .typeErr

/-- Python `==` as dispatched in `expr.py`: `Constant.__eq__` compares same-
typed constants by value, `Boolean.__eq__` and `Symbol.__eq__` by identity
(for flyweight symbols, by name), `Null.__eq__` by `other.is_null()`,
`Pair.__eq__` structurally, and `Expr.__eq__` (closures, continuations,
operators) by object identity — distinct Lean terms stand for distinct
objects, so that case is `false` here. -/
def eqPy : Expr → Expr → Bool
| .num m, .num n => decide (m = n)
| .bool x, .bool y => decide (x = y)
| .sym a, .sym b => decide (a = b)
| .nil, y => isNullE y
| .pair a b, .pair c d => eqPy a c && eqPy b d
| _, _ => false

/-- The `eq` method: `Expr.eq` returns `T()` when `self == other` and `F()`
otherwise.  The overrides `T.eq`, `F.eq` and `U.eq` return the same
singletons in every branch (`T.eq` returns `self` = `T` when equal, `F.eq`
returns `self` = `F` when unequal, `U.eq` returns `T()`/`F()` directly), so
one definition covers all receivers. -/
def eqE (x y : Expr) : Expr :=
  if eqPy x y then .bool .t else .bool .f

/-- `Number.__add__`: adds the values of two `Number`s; any other operand
combination raises `TypeError` when the addition is attempted. -/
def addPy : Expr → Expr → Except Err Expr
| .num m, .num n => .ok (.num (m + n))
| _, _ => .error .typeErr

/-- The result computation of each eager primitive, performed when its
result-building thunk is invoked: `Addition` computes `args[0] + args[1]`,
`Equality` computes `args[0].eq(args[1])`, `Head` computes `args[0].car()`,
`Tail` computes `args[0].cdr()`. -/
def computePrim : OpKind → Expr → Except Err Expr
| .addOp, args => do
  let a0 ← getItem args (.int 0)
  let a1 ← getItem args (.int 1)
  addPy a0 a1
| .eqOp, args => do
  let a0 ← getItem args (.int 0)
  let a1 ← getItem args (.int 1)
  pure (eqE a0 a1)
| .headOp, args => do
  let a0 ← getItem args (.int 0)
  carF a0
| .tailOp, args => do
  let a0 ← getItem args (.int 0)
  cdrF a0
| _, _ => .error .attrErr

/-- `str()` of an expression (`__str__` in `expr.py`).  The second argument
selects `qualified_str('[', ', ', ']')` rendering (`false`) versus
`trailing_str(', ', ']')` rendering (`true`) of a list tail; the two
mutually recursive Python methods are combined into one function on that
flag.  `Cont` and the operator singletons have no `__str__` and fall back to
the host's default repr, which is not modelled. -/
def strQ : Expr → Bool → String
| .num n, _ => toString n
| .bool .t, _ => "true"
| .bool .f, _ => "false"
| .bool .u, _ => "unknown"
| .sym s, _ => s
| .nil, false => "[]"
| .nil, true => "]"
| .pair a d, false => "[" ++ strQ a false ++ strQ d true
| .pair a d, true => ", " ++ strQ a false ++ strQ d true
| .cond t c alt, _ =>
  "if (" ++ strQ t false ++ ") \x7b" ++ strQ c false ++ "\x7d else \x7b" ++ strQ alt false ++ "\x7d"
| .lam f b, _ => "Lambda " ++ strQ f false ++ ": \x7b " ++ strQ b false ++ " \x7d"
| .app f ops, _ => strQ f false ++ strQ ops false
| .closure f b _, _ => "Closure(" ++ strQ f false ++ ": " ++ strQ b false ++ ")"
| .cont _, _ => ""
| .opE _, _ => ""

/-- `str()` of an expression. -/
def strE (e : Expr) : String := strQ e false

/-- `Print.apply_evaluated_args` writes `str(arg)` for each argument in
order, then a newline; the writes are modelled as one output string. -/
def printStr : Expr → String
| .pair x r => strE x ++ printStr r
| _ => "\n"

/-- Lookup in a single frame's bindings. -/
def lookupB : Bindings → String → Option Expr
| .nil, _ => none
| .cons n v r, s => if n = s then some v else lookupB r s

/-- Modelled from the spec: `environment.py` is not under `src/`.  Spec §4.2:
`lookup` searches innermost to outermost and fails with `SymbolNotFound` on a
miss. -/
def lookupEnv : EnvT → String → Option Expr
| .root, _ => none
| .frame bs parent, s =>
  match lookupB bs s with
  | some v => some v
  | none => lookupEnv parent s

/-- Modelled from the spec: `environment.py` is not under `src/`.  Spec §4.2:
`extend(dict)` returns a new child frame seeded with the dict, never mutating
the parent. -/
def extend (e : EnvT) (d : Bindings) : EnvT := .frame d e

/-- The binding loop of `Closure.apply_evaluated_args`:
`while type(formal_args) is not Null and type(actual_args) is not Null`,
binding `formal_args.car()` to `actual_args.car()` in the dictionary in
order.  Returns the dictionary and the remaining formals and actuals.
(A Python dict would keep only the last value of a duplicated formal name;
the association list keeps both, with lookup finding the first — the two
agree whenever formal names are distinct.) -/
def bindArgs : Expr → Expr → Bindings × Expr × Expr
| .pair f fs, .pair x xs =>
  let r := bindArgs fs xs
  (.cons (symName f) x r.1, r.2.1, r.2.2)
| fa, aa => (.nil, fa, aa)

/-- `Closure.apply_evaluated_args` after the binding loop, in source order:
if formals remain, return (a thunk yielding to `ret`) a new `Closure` over
the remaining formals with the same body and the partially-extended
environment (currying); else if actuals remain, evaluate the body in the
extended environment under `re_apply_continuation` (over-application); else
evaluate the body in the extended environment with the caller's `ret`. -/
def applyClosure (F B : Expr) (E : EnvT) (args : Expr) (k : Cont) (a : Amb) : Promise :=
  let r := bindArgs F args
  if isNullE r.2.1 = false then
    .thunk (.retT k (.closure r.2.1 B (extend E r.1)) a)
  else if isNullE r.2.2 = false then
    .thunk (.evalT B (extend E r.1) (.reApply r.2.2 k) a)
  else
    .thunk (.evalT B (extend E r.1) k a)

/-- Invoking a success continuation `ret(v, amb)`: the body of each
`ret`-closure in `expr.py`.  Every body returns a thunk, except the driver's
`halt` which yields the terminal value, and `test_continuation` /
`cont` / `cont2`, which may raise `NonBooleanExpressionError` from
`is_true()` / `is_false()`. -/
def applyCont (k : Cont) (v : Expr) (a : Amb) : Promise :=
  match k with
  | .halt => .done v
  | .evalCdr env cdrE k2 => .thunk (.evalT cdrE env (.consPair v k2) a)
  | .consPair w k2 => .thunk (.retT k2 (.pair w v) a)
  | .branch env c alt k2 =>
    match isTrue v with
    | .error e => .err e
    | .ok true => .thunk (.evalT c env k2 a)
    | .ok false => .thunk (.evalT alt env k2 a)
  | .applyOp ops env k2 => .thunk (.applyT v ops env k2 a)
  | .primApply op k2 => .thunk (.applyEvT op v k2 a)
  | .reApply actuals k2 => .thunk (.applyEvT v actuals k2 a)
  | .andCont env args k2 =>
    match isTrue v with
    | .error e => .err e
    | .ok true => .thunk (.evalIxT args 1 env k2 a)
    | .ok false =>
      match isFalse v with
      | .error e => .err e
      | .ok true => .thunk (.retT k2 v a)
      | .ok false => .thunk (.evalIxT args 1 env (.andCont2 v k2) a)
  | .andCont2 lhs k2 =>
    match isFalse v with
    | .error e => .err e
    | .ok true => .thunk (.retT k2 v a)
    | .ok false => .thunk (.retT k2 lhs a)
  | .orCont env args k2 =>
    match isTrue v with
    | .error e => .err e
    | .ok true => .thunk (.retT k2 v a)
    | .ok false =>
      match isFalse v with
      | .error e => .err e
      | .ok true => .thunk (.evalIxT args 1 env k2 a)
      | .ok false => .thunk (.evalIxT args 1 env (.orCont2 v k2) a)
  | .orCont2 lhs k2 =>
    match isTrue v with
    | .error e => .err e
    | .ok true => .thunk (.retT k2 v a)
    | .ok false => .thunk (.retT k2 lhs a)
  | .callccApply env k2 => .thunk (.applyT v (.pair (.cont k2) .nil) env k2 a)

/-- Invoking a failure continuation `amb()`.  `amb2` of `Then.apply` returns
`lambda: args[1].eval(env, ret, amb)` — a thunk evaluating the second operand
under the caller's `ret` and the caller's original `amb`.  The top-level
failure continuation is modelled from the spec (the REPL driver is not under
`src/`): spec §8, the final `back` at top level halts the driver. -/
def applyAmb : Amb → Promise
| .haltAmb => .exitS
| .thenAmb env args k a => .thunk (.evalIxT args 1 env k a)

/-- `Expr.eval(env, ret, amb)`, case by case.  `Constant.eval`,
`Symbol.eval`, `Lambda.eval` and `Cont.eval` return thunks; `Pair.eval`,
`Conditional.eval` and `Application.eval` tail-call `eval` on a subexpression
directly; `Null.eval` is the one node that invokes `ret` directly
(`return ret(self, amb)`, with no thunk).  `Closure` and the operator
singletons inherit `Expr.eval`, whose body is `pass`, i.e. they return
Python's `None` — the exit sentinel. -/
def evalF (e : Expr) (env : EnvT) (k : Cont) (a : Amb) : Promise :=
  match e with
  | .num n => .thunk (.retT k (.num n) a)
  | .bool b => .thunk (.retT k (.bool b) a)
  | .sym s => .thunk (.lookupT s env k a)
  | .nil => applyCont k .nil a
  | .pair c d => evalF c env (.evalCdr env d k) a
  | .cond t c alt => evalF t env (.branch env c alt k) a
  | .lam F B => .thunk (.retT k (.closure F B env) a)
  | .app f ops => evalF f env (.applyOp ops env k) a
  | .closure _ _ _ => .exitS
  | .cont c => .thunk (.retT k (.cont c) a)
  | .opE _ => .exitS

/-- `Op.apply(args, env, ret, amb)`, case by case.  `And`, `Or` and `Then`
return thunks that evaluate their first operand under the appropriate
continuations; `Back` returns a thunk that invokes the current `amb`,
ignoring its operands; `CallCC` tail-calls `args[0].eval` directly; every
`Primitive` (closures, reified continuations, and the eager built-ins
including `exit` and `print`) tail-calls `args.eval(env, deferred_apply,
amb)` directly.  A non-`Op` receiver has no `apply` method. -/
def applyF (op : Expr) (args : Expr) (env : EnvT) (k : Cont) (a : Amb) : Promise :=
  match op with
  | .opE .andOp => .thunk (.evalIxT args 0 env (.andCont env args k) a)
  | .opE .orOp => .thunk (.evalIxT args 0 env (.orCont env args k) a)
  | .opE .thenOp => .thunk (.evalIxT args 0 env k (.thenAmb env args k a))
  | .opE .backOp => .thunk (.ambT a)
  | .opE .callccOp =>
    match getItem args (.int 0) with
    | .ok f => evalF f env (.callccApply env k) a
    | .error er => .err er
  | .opE o => evalF args env (.primApply (.opE o) k) a
  | .closure F B E => evalF args env (.primApply (.closure F B E) k) a
  | .cont c => evalF args env (.primApply (.cont c) k) a
  | _ => .err .attrErr

/-- `apply_evaluated_args(args, ret, amb)`, case by case.  A `Closure` runs
its binding loop and branches; a reified `Cont` returns
`lambda: self._ret(args[0], amb)`; `Exit` returns `None` — the exit sentinel
— without touching `ret` or `amb`; `Print` writes its arguments and a
newline, then returns `lambda: ret(args, amb)`; the eager primitives return
their result-building thunk.  Receivers without the method (special forms,
plain values) raise. -/
def applyEvF (op : Expr) (args : Expr) (k : Cont) (a : Amb) : Promise :=
  match op with
  | .closure F B E => applyClosure F B E args k a
  | .cont c => .thunk (.contRetT c args a)
  | .opE .exitOp => .exitS
  | .opE .printOp => .out (printStr args) (.thunk (.retT k args a))
  | .opE .addOp => .thunk (.primResT .addOp args k a)
  | .opE .eqOp => .thunk (.primResT .eqOp args k a)
  | .opE .headOp => .thunk (.primResT .headOp args k a)
  | .opE .tailOp => .thunk (.primResT .tailOp args k a)
  | _ => .err .attrErr

/-- Invoking a thunk: run the body of the corresponding `lambda:`. -/
def force : Th → Promise
| .evalT e env k a => evalF e env k a
| .evalIxT args i env k a =>
  match getItem args (.int i) with
  | .ok e => evalF e env k a
  | .error er => .err er
| .retT k v a => applyCont k v a
| .ambT a => applyAmb a
| .applyT op args env k a => applyF op args env k a
| .applyEvT op args k a => applyEvF op args k a
| .primResT o args k a =>
  match computePrim o args with
  | .ok v => applyCont k v a
  | .error er => .err er
| .contRetT c args a =>
  match getItem args (.int 0) with
  | .ok v => applyCont c v a
  | .error er => .err er
| .lookupT s env k a =>
  match lookupEnv env s with
  | some v => applyCont k v a
  | none => .err .symbolNotFound

/-- Whether a promise is a thunk (versus a terminal value, the exit
sentinel, an exception, or an output event). -/
def isThunkP : Promise → Bool
| .thunk _ => true
| _ => false

/-- What a finished run of the driver produced. -/
inductive Outcome
| val (v : Expr)
| exited
| error (e : Err)
| fuelOut

/-- Modelled from the spec: the trampoline driver is not under `src/`.
Spec §4.1: a driver loop repeatedly invokes the returned thunk and stops when
it observes a non-thunk or the exit sentinel.  Output events are appended to
the collected output.  The fuel argument bounds the number of steps; every
terminating run is reproduced with enough fuel. -/
def drive : Nat → Promise → List String → Outcome × List String
| 0, _, outAcc => (.fuelOut, outAcc)
| n + 1, p, outAcc =>
  match p with
  | .thunk t => drive n (force t) outAcc
  | .out s rest => drive n rest (outAcc ++ [s])
  | .done v => (.val v, outAcc)
  | .exitS => (.exited, outAcc)
  | .err e => (.error e, outAcc)

/-- An initial top-level environment binding the built-ins the concrete runs
use (spec §6: each built-in reachable by some symbol; spellings follow the
spec's list). -/
def env0 : EnvT :=
  .frame
    (.cons "+" (.opE .addOp)
      (.cons "==" (.opE .eqOp)
        (.cons "and" (.opE .andOp)
          (.cons "or" (.opE .orOp)
            (.cons "then" (.opE .thenOp)
              (.cons "back" (.opE .backOp)
                (.cons "call/cc" (.opE .callccOp)
                  (.cons "exit" (.opE .exitOp)
                    (.cons "print" (.opE .printOp)
                      (.cons "head" (.opE .headOp)
                        (.cons "tail" (.opE .tailOp) .nil)))))))))))
    .root

/-- The program `(+ 1 (call/cc (lambda (k) (k 10))))` from spec §8. -/
def callccProg : Expr :=
  .app (.sym "+")
    (ofList [.num 1,
      .app (.sym "call/cc")
        (ofList [.lam (ofSyms ["k"]) (.app (.sym "k") (ofList [.num 10]))])])

/-- The program `(then (back) 42)`: the first alternative immediately fails,
so `amb2` fires and the second operand is evaluated under the caller's
`ret`. -/
def thenBackProg : Expr :=
  .app (.sym "then") (ofList [.app (.sym "back") .nil, .num 42])

/-- The program `(exit (print 1))`: the operand is evaluated (printing) and
only then does `exit` halt the trampoline. -/
def exitPrintProg : Expr :=
  .app (.sym "exit") (ofList [.app (.sym "print") (ofList [.num 1])])

/-- The binding loop on a proper formal list and a proper actual list binds
the common prefix pairwise and leaves the dropped remainders. -/
theorem bindArgs_ofSyms_ofList (fs : List String) :
    ∀ xs : List Expr,
      bindArgs (ofSyms fs) (ofList xs)
        = (mkBindings (fs.zip xs), ofSyms (fs.drop xs.length), ofList (xs.drop fs.length)) := by
  induction fs with
  | nil => intro xs; cases xs <;> simp [ofSyms, ofList, bindArgs, mkBindings]
  | cons f fs ih =>
    intro xs
    cases xs with
    | nil => simp [ofSyms, ofList, bindArgs, mkBindings]
    | cons x xs =>
      simp [ofSyms, ofList, bindArgs, mkBindings, symName, List.zip_cons_cons, ih xs]
      rfl

/-- Walking any number of steps from `Null` still finds `Null` and raises
`KeyError` at the final check. -/
theorem listRef_nil_keyErr : ∀ n : Nat, listRef n Expr.nil = .error .keyErr := by
  intro n
  induction n with
  | zero => rfl
  | succ n ih => simpa [listRef, cdrF] using ih

/-- An in-range walk returns the element at that position. -/
theorem listRef_ofList_lt :
    ∀ (xs : List Expr) (i : Nat) (h : i < xs.length),
      listRef i (ofList xs) = .ok (xs.get ⟨i, h⟩) := by
  intro xs
  induction xs with
  | nil => intro i h; exact absurd h (by simp)
  | cons x xs ih =>
    intro i h
    cases i with
    | zero => simp [ofList, listRef, isNullE, carF]
    | succ i =>
      have h2 : i < xs.length := Nat.lt_of_succ_lt_succ h
      simp [ofList, listRef, cdrF, ih i h2]

/-- An out-of-range walk raises `KeyError`. -/
theorem listRef_ofList_ge :
    ∀ (xs : List Expr) (i : Nat), xs.length ≤ i → listRef i (ofList xs) = .error .keyErr := by
  intro xs
  induction xs with
  | nil => intro i h; simpa [ofList] using listRef_nil_keyErr i
  | cons x xs ih =>
    intro i h
    cases i with
    | zero => simp at h
    | succ i =>
      have h2 : xs.length ≤ i := Nat.le_of_succ_le_succ h
      simp [ofList, listRef, cdrF, ih i h2]

/-- On a proper list and a natural index, `__getitem__` is the walking loop:
the non-integer and negative-index guards do not fire. -/
theorem getItem_ofList (xs : List Expr) (i : Nat) :
    getItem (ofList xs) (.int i) = listRef i (ofList xs) := by
  cases xs with
  | nil => simp [ofList, getItem, listRef_nil_keyErr]
  | cons x xs =>
    have h0 : ¬ ((i : Int) < 0) := by omega
    have ht : ((i : Int)).toNat = i := by omega
    simp [ofList, getItem, h0, ht]

/-- C1: applying the `then` special form to operands `a` and `b` evaluates
`a` under the caller's `ret` and a new failure continuation `amb2`; invoking
`amb2` evaluates `b` under the caller's `ret` and the caller's original
`amb`; and `back` ignores its operands and returns a thunk that invokes the
current `amb`.  The concrete run `(then (back) 42)` exercises the mechanism:
the first alternative fails and the second yields `42`. -/
theorem c1_then_back :
    ∀ (a b : Expr) (env : EnvT) (k : Cont) (amb : Amb),
    applyF (.opE .thenOp) (ofList [a, b]) env k amb
      = .thunk (.evalIxT (ofList [a, b]) 0 env k (.thenAmb env (ofList [a, b]) k amb))
    ∧ force (.evalIxT (ofList [a, b]) 0 env k (.thenAmb env (ofList [a, b]) k amb))
      = evalF a env k (.thenAmb env (ofList [a, b]) k amb)
    ∧ applyAmb (.thenAmb env (ofList [a, b]) k amb)
      = .thunk (.evalIxT (ofList [a, b]) 1 env k amb)
    ∧ force (.evalIxT (ofList [a, b]) 1 env k amb) = evalF b env k amb
    ∧ (∀ ops : Expr, applyF (.opE .backOp) ops env k amb = .thunk (.ambT amb))
    ∧ force (.ambT amb) = applyAmb amb
    ∧ drive 50 (evalF thenBackProg env0 .halt .haltAmb) [] = (.val (.num 42), []) :=
  fun _ _ _ _ _ => ⟨rfl, rfl, rfl, rfl, fun _ => rfl, rfl, rfl⟩

/-- C2: `Closure.apply_evaluated_args` on formals `F`, body `B`, captured
environment `E` and evaluated actuals `A`: with `F` and `A` exhausted
together the body is evaluated in `E` extended with the pairwise bindings
under the caller's `ret`; with formals remaining a new `Closure` over the
remaining formals, same body and the partially-extended environment is
yielded to `ret`; with actuals remaining the body is evaluated and its
result is re-applied to the remaining actuals with the caller's `ret`. -/
theorem c2_closure_application :
    ∀ (fs : List String) (xs : List Expr) (B : Expr) (E : EnvT) (k : Cont) (a : Amb),
    (fs.length = xs.length →
      applyEvF (.closure (ofSyms fs) B E) (ofList xs) k a
        = .thunk (.evalT B (extend E (mkBindings (fs.zip xs))) k a))
    ∧ (xs.length < fs.length →
      applyEvF (.closure (ofSyms fs) B E) (ofList xs) k a
        = .thunk (.retT k
            (.closure (ofSyms (fs.drop xs.length)) B (extend E (mkBindings (fs.zip xs)))) a))
    ∧ (fs.length < xs.length →
      applyEvF (.closure (ofSyms fs) B E) (ofList xs) k a
        = .thunk (.evalT B (extend E (mkBindings (fs.zip xs)))
            (.reApply (ofList (xs.drop fs.length)) k) a)) := by
  intro fs xs B E k a
  refine ⟨?_, ?_, ?_⟩ <;> intro h
  · have h1 : fs.drop xs.length = [] := by rw [← h]; exact List.drop_length fs
    have h2 : xs.drop fs.length = [] := by rw [h]; exact List.drop_length xs
    simp [applyEvF, applyClosure, bindArgs_ofSyms_ofList, h1, h2, ofSyms, ofList, isNullE]
  · have h2 : xs.drop fs.length = [] := List.drop_eq_nil_of_le (le_of_lt h)
    cases hfd : fs.drop xs.length with
    | nil =>
      exfalso
      have hl := congrArg List.length hfd
      simp [List.length_drop] at hl
      omega
    | cons y ys =>
      simp [applyEvF, applyClosure, bindArgs_ofSyms_ofList, hfd, h2, ofSyms, ofList, isNullE]
  · have h1 : fs.drop xs.length = [] := List.drop_eq_nil_of_le (le_of_lt h)
    cases hxd : xs.drop fs.length with
    | nil =>
      exfalso
      have hl := congrArg List.length hxd
      simp [List.length_drop] at hl
      omega
    | cons y ys =>
      simp [applyEvF, applyClosure, bindArgs_ofSyms_ofList, hxd, h1, ofSyms, ofList, isNullE]

/-- C2 witness: the three cases at concrete inputs — exact application,
currying `((lambda (x y) ...) 3)`, and over-application
`((lambda (x) ...) 3 4)`. -/
theorem c2_closure_application_witness :
    applyEvF (.closure (ofSyms ["x"]) (.sym "x") .root) (ofList [.num 3]) .halt .haltAmb
      = .thunk (.evalT (.sym "x") (extend .root (mkBindings [("x", Expr.num 3)])) .halt .haltAmb)
    ∧ applyEvF (.closure (ofSyms ["x", "y"]) (.sym "x") .root) (ofList [.num 3]) .halt .haltAmb
      = .thunk (.retT .halt
          (.closure (ofSyms ["y"]) (.sym "x") (extend .root (mkBindings [("x", Expr.num 3)])))
          .haltAmb)
    ∧ applyEvF (.closure (ofSyms ["x"]) (.sym "x") .root) (ofList [.num 3, .num 4]) .halt .haltAmb
      = .thunk (.evalT (.sym "x") (extend .root (mkBindings [("x", Expr.num 3)]))
          (.reApply (ofList [.num 4]) .halt) .haltAmb) := by
  refine ⟨?_, ?_, ?_⟩
  · exact (c2_closure_application ["x"] [.num 3] (.sym "x") .root .halt .haltAmb).1 rfl
  · exact (c2_closure_application ["x", "y"] [.num 3] (.sym "x") .root .halt .haltAmb).2.1
      (by decide)
  · exact (c2_closure_application ["x"] [.num 3, .num 4] (.sym "x") .root .halt .haltAmb).2.2
      (by decide)

/-- C3: `call/cc f` evaluates `f` and applies the resulting closure to a
reified `Cont` wrapping the caller's `ret`; applying that `Cont` to `v` with
failure continuation `a3` invokes the captured `ret` on `(v, a3)` — the
`amb` in force at the invocation site — while the `ret` at the invocation
site (`kIgn`) is abandoned; and a `Cont` evaluates to itself.  The concrete
run is `(+ 1 (call/cc (lambda (k) (k 10)))) = 11`. -/
theorem c3_callcc :
    ∀ (f v : Expr) (env env2 : EnvT) (k kIgn k2 : Cont) (a a2 a3 : Amb),
    applyF (.opE .callccOp) (ofList [f]) env k a = evalF f env (.callccApply env k) a
    ∧ applyCont (.callccApply env k) v a2
      = .thunk (.applyT v (.pair (.cont k) .nil) env k a2)
    ∧ applyEvF (.cont k2) (ofList [v]) kIgn a3 = .thunk (.contRetT k2 (ofList [v]) a3)
    ∧ force (.contRetT k2 (ofList [v]) a3) = applyCont k2 v a3
    ∧ evalF (.cont k2) env2 k a = .thunk (.retT k (.cont k2) a)
    ∧ drive 100 (evalF callccProg env0 .halt .haltAmb) [] = (.val (.num 11), []) :=
  fun _ _ _ _ _ _ _ _ _ _ => ⟨rfl, rfl, rfl, rfl, rfl, rfl⟩

/-- C4: a `Conditional` evaluates its test under `test_continuation`; a true
test result selects the consequent, a false one the alternative, the
`unknown` boolean follows the false branch, and a non-boolean test result
raises `NonBooleanExpressionError` at the point `is_true()` is asked. -/
theorem c4_conditional :
    ∀ (t c alt v : Expr) (env : EnvT) (k : Cont) (a a2 : Amb),
    evalF (.cond t c alt) env k a = evalF t env (.branch env c alt k) a
    ∧ applyCont (.branch env c alt k) (.bool .t) a2 = .thunk (.evalT c env k a2)
    ∧ applyCont (.branch env c alt k) (.bool .f) a2 = .thunk (.evalT alt env k a2)
    ∧ applyCont (.branch env c alt k) (.bool .u) a2 = .thunk (.evalT alt env k a2)
    ∧ (isBoolE v = false → applyCont (.branch env c alt k) v a2 = .err .nonBoolean) := by
  intro t c alt v env k a a2
  refine ⟨rfl, rfl, rfl, rfl, ?_⟩
  intro h
  cases v <;> simp_all [isBoolE, applyCont, isTrue]

/-- C4 witness: the non-boolean test value `0` raises `NonBooleanExpression`
when the branch continuation asks `is_true()`. -/
theorem c4_conditional_witness :
    isBoolE (.num 0) = false
    ∧ applyCont (.branch .root (.num 1) (.num 2) .halt) (.num 0) .haltAmb = .err .nonBoolean :=
  ⟨rfl, (c4_conditional (.num 9) (.num 1) (.num 2) (.num 0) .root .halt .haltAmb .haltAmb).2.2.2.2
    rfl⟩

/-- C5: the `and` special form evaluates its first operand; a true value
selects evaluation of the second operand with the caller's `ret`, a false
value yields the first operand's value, and `unknown` evaluates the second
operand, yielding it when false and the `unknown` otherwise; symmetrically
for `or`.  The concrete runs are `(and unknown false) = false` and
`(or unknown true) = true`. -/
theorem c5_and_or :
    ∀ (x y : Expr) (env : EnvT) (k : Cont) (amb a2 : Amb),
    applyF (.opE .andOp) (ofList [x, y]) env k amb
      = .thunk (.evalIxT (ofList [x, y]) 0 env (.andCont env (ofList [x, y]) k) amb)
    ∧ force (.evalIxT (ofList [x, y]) 0 env (.andCont env (ofList [x, y]) k) amb)
      = evalF x env (.andCont env (ofList [x, y]) k) amb
    ∧ applyCont (.andCont env (ofList [x, y]) k) (.bool .t) a2
      = .thunk (.evalIxT (ofList [x, y]) 1 env k a2)
    ∧ force (.evalIxT (ofList [x, y]) 1 env k a2) = evalF y env k a2
    ∧ applyCont (.andCont env (ofList [x, y]) k) (.bool .f) a2
      = .thunk (.retT k (.bool .f) a2)
    ∧ applyCont (.andCont env (ofList [x, y]) k) (.bool .u) a2
      = .thunk (.evalIxT (ofList [x, y]) 1 env (.andCont2 (.bool .u) k) a2)
    ∧ applyCont (.andCont2 (.bool .u) k) (.bool .f) a2 = .thunk (.retT k (.bool .f) a2)
    ∧ applyCont (.andCont2 (.bool .u) k) (.bool .t) a2 = .thunk (.retT k (.bool .u) a2)
    ∧ applyCont (.andCont2 (.bool .u) k) (.bool .u) a2 = .thunk (.retT k (.bool .u) a2)
    ∧ applyF (.opE .orOp) (ofList [x, y]) env k amb
      = .thunk (.evalIxT (ofList [x, y]) 0 env (.orCont env (ofList [x, y]) k) amb)
    ∧ applyCont (.orCont env (ofList [x, y]) k) (.bool .t) a2
      = .thunk (.retT k (.bool .t) a2)
    ∧ applyCont (.orCont env (ofList [x, y]) k) (.bool .f) a2
      = .thunk (.evalIxT (ofList [x, y]) 1 env k a2)
    ∧ applyCont (.orCont env (ofList [x, y]) k) (.bool .u) a2
      = .thunk (.evalIxT (ofList [x, y]) 1 env (.orCont2 (.bool .u) k) a2)
    ∧ applyCont (.orCont2 (.bool .u) k) (.bool .t) a2 = .thunk (.retT k (.bool .t) a2)
    ∧ applyCont (.orCont2 (.bool .u) k) (.bool .f) a2 = .thunk (.retT k (.bool .u) a2)
    ∧ applyCont (.orCont2 (.bool .u) k) (.bool .u) a2 = .thunk (.retT k (.bool .u) a2)
    ∧ drive 50 (evalF (.app (.sym "and") (ofList [.bool .u, .bool .f])) env0 .halt .haltAmb) []
        = (.val (.bool .f), [])
    ∧ drive 50 (evalF (.app (.sym "or") (ofList [.bool .u, .bool .t])) env0 .halt .haltAmb) []
        = (.val (.bool .t), []) :=
  fun _ _ _ _ _ _ =>
    ⟨rfl, rfl, rfl, rfl, rfl, rfl, rfl, rfl, rfl, rfl, rfl, rfl, rfl, rfl, rfl, rfl, rfl, rfl⟩

/-- C6: over the three boolean singletons the operations satisfy the Kleene
identities listed in the spec, and `xor` is `(x & ~y) | (y & ~x)`. -/
theorem c6_kleene_identities :
    notB .u = .u
    ∧ (∀ x, andB .t x = x)
    ∧ (∀ x, andB .f x = .f)
    ∧ (∀ x, orB .f x = x)
    ∧ (∀ x, orB .t x = .t)
    ∧ andB .u .f = .f
    ∧ andB .u .t = .u
    ∧ orB .u .t = .t
    ∧ orB .u .f = .u
    ∧ (∀ x y, xorB x y = orB (andB x (notB y)) (andB y (notB x))) := by
  refine ⟨rfl, ?_, ?_, ?_, ?_, rfl, rfl, rfl, rfl, ?_⟩
  · intro x; cases x <;> rfl
  · intro x; cases x <;> rfl
  · intro x; cases x <;> rfl
  · intro x; cases x <;> rfl
  · intro x y; rfl

/-- C7 counterexample: `(eq unknown true)` evaluates to `false`, not
`unknown` — `U.eq` returns `T()` when the operands are the same object and
`F()` otherwise, and never returns `U`. -/
theorem c7_eq_unknown_counterexample :
    drive 50 (evalF (.app (.sym "==") (ofList [.bool .u, .bool .t])) env0 .halt .haltAmb) []
      = (.val (.bool .f), [])
    ∧ computePrim .eqOp (ofList [.bool .u, .bool .t]) = .ok (.bool .f)
    ∧ BV3.f ≠ BV3.u :=
  ⟨rfl, rfl, by decide⟩

/-- C7 amended: the `eq` primitive compares booleans, symbols and Null by
identity and Pairs and Constants structurally, always returning `true` or
`false` and never `unknown`; in particular `(eq unknown true)` yields
`false`. -/
theorem c7_eq_identity_structural :
    (∀ x y : BV3, eqE (.bool x) (.bool y) = .bool (if x = y then .t else .f))
    ∧ (∀ s1 s2 : String, eqE (.sym s1) (.sym s2) = .bool (if s1 = s2 then .t else .f))
    ∧ eqE .nil .nil = .bool .t
    ∧ (∀ a b c d : Expr, eqPy (.pair a b) (.pair c d) = (eqPy a c && eqPy b d))
    ∧ (∀ m n : Int, eqE (.num m) (.num n) = .bool (if m = n then .t else .f))
    ∧ (∀ x y : Expr, eqE x y ≠ .bool .u)
    ∧ (∀ (k : Cont) (a : Amb),
        applyEvF (.opE .eqOp) (ofList [.bool .u, .bool .t]) k a
          = .thunk (.primResT .eqOp (ofList [.bool .u, .bool .t]) k a)) := by
  refine ⟨?_, ?_, rfl, ?_, ?_, ?_, fun _ _ => rfl⟩
  · intro x y; by_cases h : x = y <;> simp [eqE, eqPy, h]
  · intro s1 s2; by_cases h : s1 = s2 <;> simp [eqE, eqPy, h]
  · intro a b c d; rfl
  · intro m n; by_cases h : m = n <;> simp [eqE, eqPy, h]
  · intro x y hc
    unfold eqE at hc
    by_cases h : eqPy x y
    · rw [if_pos h] at hc
      exact absurd (Expr.bool.inj hc) (by decide)
    · rw [if_neg h] at hc
      exact absurd (Expr.bool.inj hc) (by decide)

/-- C8: the spec's trampoline contract says every step returns a thunk and
never invokes a continuation directly, but `Null.eval` is
`return ret(self, amb)` — it calls the success continuation directly on the
host stack and returns whatever it returns (here a non-thunk terminal
value), while e.g. a `Number` constant dutifully returns a thunk. -/
theorem c8_null_eval_invokes_ret_directly :
    (∀ (env : EnvT) (k : Cont) (a : Amb), evalF .nil env k a = applyCont k .nil a)
    ∧ evalF .nil .root .halt .haltAmb = .done .nil
    ∧ isThunkP (evalF .nil .root .halt .haltAmb) = false
    ∧ (∀ (n : Int) (env : EnvT) (k : Cont) (a : Amb),
        evalF (.num n) env k a = .thunk (.retT k (.num n) a))
    ∧ isThunkP (evalF (.num 0) .root .halt .haltAmb) = true :=
  ⟨fun _ _ _ => rfl, rfl, rfl, fun _ _ _ _ => rfl, rfl⟩

/-- C9: list indexing raises `TypeError` on a non-integer index and
`KeyError` on a negative index or when no such element exists, and otherwise
returns the element; `car` and `cdr` of `Null` do not fail but return `Null`
itself, so the `head`/`tail` primitives on the empty list succeed with
`Null`. -/
theorem c9_list_indexing :
    (∀ l : Expr, isListE l = true → getItem l .notInt = .error .typeErr)
    ∧ (∀ (c d : Expr) (i : Int), i < 0 → getItem (.pair c d) (.int i) = .error .keyErr)
    ∧ (∀ i : Int, getItem .nil (.int i) = .error .keyErr)
    ∧ (∀ (xs : List Expr) (i : Nat) (h : i < xs.length),
        getItem (ofList xs) (.int i) = .ok (xs.get ⟨i, h⟩))
    ∧ (∀ (xs : List Expr) (i : Nat), xs.length ≤ i →
        getItem (ofList xs) (.int i) = .error .keyErr)
    ∧ carF .nil = .ok .nil
    ∧ cdrF .nil = .ok .nil
    ∧ computePrim .headOp (.pair .nil .nil) = .ok .nil
    ∧ computePrim .tailOp (.pair .nil .nil) = .ok .nil := by
  refine ⟨?_, ?_, fun _ => rfl, ?_, ?_, rfl, rfl, rfl, rfl⟩
  · intro l h; cases l <;> simp_all [isListE, getItem]
  · intro c d i h; simp [getItem, h]
  · intro xs i h
    rw [getItem_ofList]
    exact listRef_ofList_lt xs i h
  · intro xs i h
    rw [getItem_ofList]
    exact listRef_ofList_ge xs i h

/-- C9 witness: the error and success cases at concrete inputs. -/
theorem c9_list_indexing_witness :
    isListE (.pair (.num 5) .nil) = true
    ∧ getItem (.pair (.num 5) .nil) .notInt = .error .typeErr
    ∧ ((-1 : Int) < 0)
    ∧ getItem (.pair (.num 5) .nil) (.int (-1)) = .error .keyErr
    ∧ (1 < [Expr.num 5, Expr.num 6].length)
    ∧ getItem (ofList [.num 5, .num 6]) (.int 1) = .ok (.num 6)
    ∧ ([Expr.num 5].length ≤ 3)
    ∧ getItem (ofList [.num 5]) (.int 3) = .error .keyErr := by
  refine ⟨rfl, ?_, by decide, ?_, by decide, ?_, by decide, ?_⟩
  · exact c9_list_indexing.1 (.pair (.num 5) .nil) rfl
  · exact c9_list_indexing.2.1 (.num 5) .nil (-1) (by decide)
  · exact c9_list_indexing.2.2.2.1 [.num 5, .num 6] 1 (by decide)
  · exact c9_list_indexing.2.2.2.2.1 [.num 5] 3 (by decide)

/-- C10: applying `exit` first evaluates its operand list like every other
primitive (so operand side effects such as printing occur), and
`Exit.apply_evaluated_args` then returns the non-thunk `None` sentinel,
independent of — and without invoking — the success and failure
continuations it was given.  The concrete run `(exit (print 1))` prints
`1` and then halts the trampoline. -/
theorem c10_exit_after_operand_effects :
    (∀ (args : Expr) (env : EnvT) (k : Cont) (a : Amb),
      applyF (.opE .exitOp) args env k a = evalF args env (.primApply (.opE .exitOp) k) a)
    ∧ (∀ (args : Expr) (k k2 : Cont) (a a2 : Amb),
        applyEvF (.opE .exitOp) args k a = .exitS
        ∧ applyEvF (.opE .exitOp) args k a = applyEvF (.opE .exitOp) args k2 a2)
    ∧ isThunkP (applyEvF (.opE .exitOp) .nil .halt .haltAmb) = false
    ∧ drive 100 (evalF exitPrintProg env0 .halt .haltAmb) [] = (.exited, ["1\n"]) :=
  ⟨fun _ _ _ _ => rfl, fun _ _ _ _ _ => ⟨rfl, rfl⟩, rfl, rfl⟩

end PyScheme
